import Mathlib

/-!
Verification of the discovery-sampling-relevance pipeline of the Opendati
repository (src/app/api/chat/route.ts, final revision v1.4, and the
intelligentQuery module). The sources are TypeScript; this file is a shallow
embedding: network calls become explicit response values passed in, JavaScript
strings become Lean strings (case mapping modelled for ASCII), JavaScript
numbers appearing as counts and years become integers, and byte buffers become
lists of naturals. Each JavaScript-specific behaviour the embedding relies on
(truthiness, stable sort tie order, regex word boundaries, split edge cases)
is noted at the definition that models it.
-/

namespace Opendati

/-! ## String utilities shared by the embedded functions -/

/-- Test whether the second character list occurs at the head of the first. -/
def charsStartWith : List Char → List Char → Bool
  | _, [] => true
  | [], _ :: _ => false
  | h :: hs, p :: ps => h = p && charsStartWith hs ps

/-- Test whether the second character list occurs anywhere inside the first. -/
def charsHaveSub : List Char → List Char → Bool
  | [], pat => pat.isEmpty
  | h :: t, pat => charsStartWith (h :: t) pat || charsHaveSub t pat

/-- Model of the JavaScript call hay.includes(pat). -/
def strIncludes (hay pat : String) : Bool :=
  charsHaveSub hay.data pat.data

/-- Model of the JavaScript call s.toLowerCase(), for the ASCII range the
claims exercise (character-by-character lowering). -/
def toLowerStr (s : String) : String :=
  String.mk (s.data.map Char.toLower)

/-- Whitespace trimmed by the JavaScript call s.trim(), modelled for the ASCII
whitespace characters. -/
def isWsChar (c : Char) : Bool :=
  c = ' ' || c = '\t' || c = '\n' || c = '\r' || c = Char.ofNat 11 || c = Char.ofNat 12

/-- Model of the JavaScript call s.trim(). -/
def trimStr (s : String) : String :=
  String.mk (((s.data.dropWhile isWsChar).reverse.dropWhile isWsChar).reverse)

/-- Occurrence count of a character in a string; models the idiom
(line.match(regex) or []).length used by splitCSVLine on the header line. -/
def countChar (c : Char) (s : String) : Nat :=
  (s.data.filter (fun x => x = c)).length

/-- Split a character list at every occurrence of the delimiter; models the
JavaScript String.prototype.split with a single-character separator, including
its edge cases (empty input gives one empty field, a trailing delimiter gives a
trailing empty field). -/
def splitCharsOn (d : Char) : List Char → List (List Char)
  | [] => [[]]
  | c :: rest =>
    let r := splitCharsOn d rest
    if c = d then [] :: r
    else
      match r with
      | h :: t => (c :: h) :: t
      | [] => [[c]]

/-- String wrapper for splitCharsOn. -/
def strSplitOn (d : Char) (s : String) : List String :=
  (splitCharsOn d s.data).map (fun cs => String.mk cs)

/-- Prepend a character onto the first line of a line list. -/
def lineConsChar (c : Char) : List (List Char) → List (List Char)
  | [] => [[c]]
  | h :: t => (c :: h) :: t

/-- Split at every match of the line separator regex (an optional carriage
return followed by a line feed) used by fetchSampleData; a lone carriage
return is not a separator and stays inside its line, exactly as with the
JavaScript regex. -/
def splitLineChars : List Char → List (List Char)
  | [] => [[]]
  | '\n' :: rest => [] :: splitLineChars rest
  | '\r' :: '\n' :: rest => [] :: splitLineChars rest
  | '\r' :: rest => lineConsChar '\r' (splitLineChars rest)
  | c :: rest => lineConsChar c (splitLineChars rest)

/-- String wrapper for splitLineChars. -/
def splitTextLines (s : String) : List String :=
  (splitLineChars s.data).map (fun cs => String.mk cs)

/-- Lines surviving the filter(Boolean) step of the CSV branch: the empty
string is the only falsy line. -/
def nonBlankLines (s : String) : List String :=
  (splitTextLines s).filter (fun l => l ≠ "")

/-! ## Delimited-text sampler (splitCSVLine and the CSV branch of
fetchSampleData, route.ts v1.4 lines 842-850 and 875-885) -/

/-- Tab character. -/
def TAB : Char := '\t'

/-- Delimiter autodetection of splitCSVLine: the counts of comma, semicolon
and tab in the header line are sorted descending and the first entry wins.
The JavaScript sort is stable (ES2019), so ties keep the insertion order
comma, semicolon, tab; the nested conditionals below compute exactly the
first entry of that stable descending sort. -/
def chooseDelim (headerLine : String) : Char :=
  let c1 := countChar ',' headerLine
  let c2 := countChar ';' headerLine
  let c3 := countChar TAB headerLine
  if c2 > c1 then (if c3 > c2 then TAB else ';')
  else (if c3 > c1 then TAB else ',')

/-- splitCSVLine from the source: split a line at the delimiter autodetected
from the header line. -/
def splitCSVLine (line headerLine : String) : List String :=
  strSplitOn (chooseDelim headerLine) line

/-- Assignment obj[k] = v on a JavaScript object modelled as an
insertion-ordered association list: an existing key keeps its position and
receives the new value, a new key is appended. -/
def objInsert (obj : List (String × String)) (k v : String) : List (String × String) :=
  if obj.any (fun kv => kv.1 = k) then
    obj.map (fun kv => if kv.1 = k then (k, v) else kv)
  else obj ++ [(k, v)]

/-- Row construction of the CSV branch: each (already trimmed) header token is
bound to the trimmed value token at the same index; an empty header token is
replaced by a synthesized positional name, a missing value by the empty
string. -/
def mkRow (headers values : List String) : List (String × String) :=
  headers.enum.foldl (fun obj p =>
    let key := if p.2 ≠ "" then p.2 else "col_" ++ toString (p.1 + 1)
    objInsert obj key (trimStr (values.getD p.1 ""))) []

/-- CSV branch of fetchSampleData: split into lines, discard blank lines, cap
at 101 lines, require a header plus at least one data row, autodetect the
delimiter from the header line, build row objects, and return the first 20
data rows. -/
def csvSample (text : String) : List (List (String × String)) :=
  match (nonBlankLines text).take 101 with
  | [] => []
  | [_] => []
  | headerLine :: dataLines =>
    let headers := (splitCSVLine headerLine headerLine).map (fun h => trimStr h)
    (dataLines.map (fun line => mkRow headers (splitCSVLine line headerLine))).take 20

/-! ## JSON sampler (JSON branch of fetchSampleData, route.ts v1.4
lines 864-873) -/

/-- JSON values as the sampler sees them after JSON.parse; numbers are
modelled as integers, which covers every payload the claims exercise. -/
inductive Json where
  | jnull : Json
  | jbool : Bool → Json
  | jnum : Int → Json
  | jstr : String → Json
  | jarr : List Json → Json
  | jobj : List (String × Json) → Json

/-- Truthiness of a JavaScript value, as exercised by the wrapper-key chain
json.data or json.records or json.result; a missing property (undefined) is
modelled as jnull, which is falsy like undefined. -/
def jsTruthy : Json → Bool
  | .jnull => false
  | .jbool b => b
  | .jnum n => n != 0
  | .jstr s => s ≠ ""
  | .jarr _ => true
  | .jobj _ => true

/-- Property access json.k: the value stored under k when json is an object
with such a field, otherwise undefined (modelled jnull). -/
def jsGet : Json → String → Json
  | .jobj fs, k =>
    match fs.find? (fun kv => kv.1 = k) with
    | some kv => kv.2
    | none => .jnull
  | _, _ => .jnull

/-- JSON branch of fetchSampleData: a parse failure (input none, the thrown
exception being caught in the source) yields zero rows; a top-level array
yields its first 20 elements; otherwise the first truthy value among
json.data, json.records, json.result is selected (falling back to an empty
array), and yields its first 20 elements when it is an array and zero rows
when it is not. -/
def jsonSample (parsed : Option Json) : List Json :=
  match parsed with
  | none => []
  | some j =>
    match j with
    | .jarr xs => xs.take 20
    | _ =>
      let a := jsGet j "data"
      let b := jsGet j "records"
      let c := jsGet j "result"
      let arr := if jsTruthy a then a
                 else if jsTruthy b then b
                 else if jsTruthy c then c
                 else .jarr []
      match arr with
      | .jarr xs => xs.take 20
      | _ => []

/-! ## Size gate of fetchSampleData (route.ts v1.4 lines 830-861: headInfo,
the HEAD probe check, the bounded GET and the truncation) -/

/-- Result of headInfo: ok is the HTTP success flag (false as well on a thrown
fetch exception); contentLength is parseInt of the declared header, with 0 for
a missing or unparseable header. -/
structure HeadProbe where
  ok : Bool
  contentLength : Nat
deriving DecidableEq

/-- Byte ceiling of fetchSampleData (maxBytes = 1_000_000). -/
def MAX_BYTES : Nat := 1000000

/-- Outcome of the size gate before format-specific parsing. -/
inductive FetchStage where
  | skippedLarge : FetchStage
  | fetchFailed : FetchStage
  | body : List Nat → FetchStage
deriving DecidableEq

/-- Size gate of fetchSampleData: when the HEAD probe succeeded and declared a
non-zero content length above the ceiling, the resource is skipped without a
GET (the respBody argument is ignored); a failed GET (none) yields no body;
a delivered body longer than the ceiling is truncated to it. Bytes are
modelled as naturals. -/
def fetchStage (h : HeadProbe) (respBody : Option (List Nat)) : FetchStage :=
  if h.ok && (h.contentLength != 0) && decide (MAX_BYTES < h.contentLength) then
    .skippedLarge
  else
    match respBody with
    | none => .fetchFailed
    | some bytes => .body (if MAX_BYTES < bytes.length then bytes.take MAX_BYTES else bytes)

/-- Row view of the gate: the skip and failure outcomes carry rows set to the
empty list in the source; only a delivered body reaches the parser. -/
def stageRows (parse : List Nat → List Json) : FetchStage → List Json
  | .body bs => parse bs
  | _ => []

/-! ## Relevance filter (route.ts v1.4 lines 956-963) -/

/-- Lowercase hexadecimal digit. -/
def hexDigitLower (n : Nat) : Char :=
  if n < 10 then Char.ofNat (48 + n) else Char.ofNat (97 + (n - 10))

/-- JSON string escaping as performed by JSON.stringify: quote, backslash and
the named control characters get two-character escapes, remaining control
characters a hexadecimal escape, everything else is copied. -/
def jsonEscapeChar (c : Char) : String :=
  if c = Char.ofNat 34 then "\\\""
  else if c = Char.ofNat 92 then "\\\\"
  else if c = '\n' then "\\n"
  else if c = '\r' then "\\r"
  else if c = '\t' then "\\t"
  else if c = Char.ofNat 8 then "\\b"
  else if c = Char.ofNat 12 then "\\f"
  else if c.toNat < 32 then
    "\\u00" ++ String.mk [hexDigitLower (c.toNat / 16), hexDigitLower (c.toNat % 16)]
  else String.singleton c

/-- Quoted JSON string. -/
def jsonQuote (s : String) : String :=
  "\"" ++ String.join (s.data.map jsonEscapeChar) ++ "\""

/-- JSON.stringify of one sampled row, modelled for the flat string-valued
records the CSV sampler produces (also the shape of every row in the claims). -/
def stringifyRow (row : List (String × String)) : String :=
  "\x7b" ++ String.intercalate "," (row.map (fun kv => jsonQuote kv.1 ++ ":" ++ jsonQuote kv.2)) ++ "\x7d"

/-- Word characters of the JavaScript regex boundary (letters, digits and the
underscore; the regex is not in unicode mode, so the class is ASCII). -/
def isWordChar (c : Char) : Bool := c.isAlphanum || c = '_'

/-- Numeric value of a digit character. -/
def digitVal (c : Char) : Nat := c.toNat - 48

/-- Word boundary before a match position. -/
def boundaryBefore : Option Char → Bool
  | none => true
  | some p => !isWordChar p

/-- Word boundary after a match. -/
def boundaryAfter : List Char → Bool
  | [] => true
  | r :: _ => !isWordChar r

/-- Leftmost match of the year regex of the row filter (word boundary, then 20
or 19 followed by two digits, then word boundary), returned as its numeric
value; none when the string has no match. -/
def yearScanAux : Option Char → List Char → Option Nat
  | _, [] => none
  | prev, c1 :: rest =>
    match rest with
    | c2 :: c3 :: c4 :: after =>
      if boundaryBefore prev
          && ((c1 = '2' && c2 = '0') || (c1 = '1' && c2 = '9'))
          && c3.isDigit && c4.isDigit
          && boundaryAfter after then
        some (1000 * digitVal c1 + 100 * digitVal c2 + 10 * digitVal c3 + digitVal c4)
      else yearScanAux (some c1) rest
    | _ => yearScanAux (some c1) rest

/-- First year token of a string. -/
def firstYearToken (s : String) : Option Nat :=
  yearScanAux none s.data

/-- Heuristic row filter of the handler: the lowercased JSON serialization of
the row must contain the lowercased city when a city is known, and the first
year token of that serialization, when one exists, must reach startYear. The
upper end of the year window is not consulted. -/
def rowPasses (city : Option String) (startYear : Nat) (row : List (String × String)) : Bool :=
  let s := toLowerStr (stringifyRow row)
  let cityOk := match city with
    | some c => strIncludes s (toLowerStr c)
    | none => true
  let yOk := match firstYearToken s with
    | some y => decide (startYear ≤ y)
    | none => true
  cityOk && yOk

/-- Acceptance step of the handler: keep the filtered rows when any survive,
otherwise fall back to the entire unfiltered sample; either way the result is
capped at 20 rows. -/
def relevanceAccept (city : Option String) (startYear : Nat)
    (rows : List (List (String × String))) : List (List (String × String)) :=
  let filtered := rows.filter (rowPasses city startYear)
  (if filtered.isEmpty then rows else filtered).take 20

/-! ## Catalog search executor (route.ts v1.4 lines 920-974) -/

/-- Catalog dataset as far as the modelled control flow inspects it: the
executor never inspects the dataset contents, so only the title is kept for
concreteness. -/
structure CKANDataset where
  title : String
deriving DecidableEq

/-- Outcome of fetching one search variant URL. A rejected fetch or a JSON
decoding failure raises an exception (transportErr); a response with the ok
flag false is skipped by the loop (httpErr); a decoded body carries
result.count and result.results. -/
inductive VariantResp where
  | transportErr : VariantResp
  | httpErr : VariantResp
  | ok : Int → List CKANDataset → VariantResp
deriving DecidableEq

/-- Results list carried by a response (empty for the failure outcomes). -/
def respResults : VariantResp → List CKANDataset
  | .ok _ res => res
  | _ => []

/-- Search loop of the handler. Variants are tried in order; a response with
ok false is skipped with continue; a thrown exception lands in the catch
enclosing the whole loop, so the loop never resumes and the datasets variable
of the handler keeps its initial empty value; a decoded response overwrites
the running results and the loop stops when the count is positive and the
results list non-empty. -/
def searchLoop : List VariantResp → List CKANDataset → List CKANDataset
  | [], acc => acc
  | .transportErr :: _, _ => []
  | .httpErr :: rest, acc => searchLoop rest acc
  | .ok c res :: rest, _ =>
    if 0 < c ∧ res ≠ [] then res else searchLoop rest res

/-- URL trace of the search phase: every URL passed to fetch, in order. The
loop body issues exactly one fetch per visited variant and nothing after the
loop issues another search request. -/
def searchTrace : List (String × VariantResp) → List String
  | [] => []
  | (u, .transportErr) :: _ => [u]
  | (u, .httpErr) :: rest => u :: searchTrace rest
  | (u, .ok c res) :: rest =>
    if 0 < c ∧ res ≠ [] then [u] else u :: searchTrace rest

/-- Search phase of the handler: the trace of issued search requests together
with the datasets selected for sampling, which are the first six results of
the loop; in the source no further search of any kind follows the loop (the
empty case only logs). -/
def searchPhase (vs : List (String × VariantResp)) : List String × List CKANDataset :=
  (searchTrace vs, (searchLoop (vs.map (fun p => p.2)) []).take 6)

/-! ## Query variant builder (intelligentQuery.ts: buildCKANUrl and
buildCKANPlan) -/

/-- Unreserved characters of encodeURIComponent. -/
def isUnreservedUri (c : Char) : Bool :=
  c.isAlphanum || c = '-' || c = '_' || c = '.' || c = '!' || c = '~' || c = '*'
    || c = Char.ofNat 39 || c = '(' || c = ')'

/-- Uppercase hexadecimal digit. -/
def hexDigitUpper (n : Nat) : Char :=
  if n < 10 then Char.ofNat (48 + n) else Char.ofNat (55 + n)

/-- Percent-encoded byte. -/
def pctByte (b : Nat) : String :=
  String.mk ['%', hexDigitUpper (b / 16), hexDigitUpper (b % 16)]

/-- UTF-8 bytes of a code point. -/
def utf8Bytes (n : Nat) : List Nat :=
  if n < 128 then [n]
  else if n < 2048 then [192 + n / 64, 128 + n % 64]
  else if n < 65536 then [224 + n / 4096, 128 + (n / 64) % 64, 128 + n % 64]
  else [240 + n / 262144, 128 + (n / 4096) % 64, 128 + (n / 64) % 64, 128 + n % 64]

/-- Model of encodeURIComponent: unreserved characters are copied, every other
character is replaced by the percent-encoding of its UTF-8 bytes. -/
def encodeURIComponent (s : String) : String :=
  String.join (s.data.map (fun c =>
    if isUnreservedUri c then String.singleton c
    else String.join ((utf8Bytes c.toNat).map pctByte)))

/-- CKAN package_search URL builder of intelligentQuery. -/
def buildCKANUrl (q : String) (rows : Nat) (fq : List String) : String :=
  "https://www.dati.gov.it/opendata/api/3/action/package_search?q=" ++ encodeURIComponent q
    ++ "&rows=" ++ toString rows
    ++ String.join (fq.map (fun f => "&fq=" ++ encodeURIComponent f))

/-- Query variant of the CKAN plan. -/
structure CKANQueryVariant where
  label : String
  url : String
  rationale : String
  priority : Nat
deriving DecidableEq

/-- Fields of the NormalizedQuery that buildCKANPlan reads: the topic synonym
list and canonical form, the city (the empty string models an absent city, the
falsy merge default of intelligentQueryPlan) and the year list. -/
structure PlanInput where
  synonyms : List String
  canonical : String
  city : String
  years : List Int

/-- Ascending sort by priority; the source sorts with a comparator on the
priority field, and the four priorities are distinct, so any correct sort
produces this list. -/
def sortByPriority (vs : List CKANQueryVariant) : List CKANQueryVariant :=
  List.insertionSort (fun a b => a.priority ≤ b.priority) vs

/-- buildCKANPlan of intelligentQuery, variants part: four fixed variants
(Milano holder filter, Milano organization filter, national publishers
filter, plain text) are built over the quoted synonym disjunction, the
optional quoted city and the optional year list, then sorted ascending by
priority. The source performs no deduplication of any kind. -/
def buildCKANPlanVariants (n : PlanInput) : List CKANQueryVariant :=
  let syn := if n.synonyms.isEmpty then [n.canonical] else n.synonyms
  let quotedSyn := String.intercalate " OR " (syn.map (fun s => "\"" ++ s ++ "\""))
  let geoBit := if n.city ≠ "" then " \"" ++ n.city ++ "\"" else ""
  let baseQuery := trimStr (quotedSyn ++ geoBit)
  let yearsStr := if n.years.isEmpty then ""
                  else String.intercalate " OR " (n.years.map toString)
  let q := baseQuery ++ (if yearsStr ≠ "" then " " ++ yearsStr else "")
  let fqMilanoHolder := if n.city = "Milano" then ["holder_name:\"COMUNE DI MILANO\""] else []
  let fqOrgMilano := if n.city = "Milano" then ["organization:comune-di-milano"] else []
  sortByPriority
    [⟨"Comune di Milano (holder), sinonimi tema + città",
      buildCKANUrl q 12 fqMilanoHolder,
      "Spesso i dataset civici sono pubblicati a nome del Comune.", 1⟩,
     ⟨"Comune di Milano (organization), sinonimi tema + città",
      buildCKANUrl q 12 fqOrgMilano,
      "Alcuni cataloghi usano organization anziché holder_name.", 2⟩,
     ⟨"Nazionale (ISTAT/Interno), sinonimi tema + città nel q",
      buildCKANUrl q 12 ["holder_name:\"ISTAT\"", "holder_name:\"Ministero dell\x27Interno\""],
      "Crimini spesso pubblicati da ISTAT o Ministero dell’Interno.", 3⟩,
     ⟨"Solo testo (sinonimi + città + anni), nessun fq",
      buildCKANUrl q 12 [],
      "Fallback generico su metadati indicizzati.", 4⟩]

/-! ## Entity extractor normalization (intelligentQuery.ts: normalizeTopic and
the merge step of intelligentQueryPlan) -/

/-- Topic field of the remote extraction result, as the merge reads it. -/
structure TopicIn where
  canonical : Option String
  synonyms : Option (List String)

/-- Closed topic ontology of intelligentQuery. -/
def TOPIC_ONTOLOGY : List (String × List String) :=
  [("reati", ["reati", "delitti", "criminalità", "crimini", "reati denunciati"])]

/-- Lowercased trimmed canonical topic of the extraction result (the rawCanon
local of normalizeTopic in the source; the empty string stands for a missing
canonical, its falsy default). -/
def rawCanonOf (t : Option TopicIn) : String :=
  trimStr (toLowerStr ((t.bind (fun x => x.canonical)).getD ""))

/-- normalizeTopic of intelligentQuery: the lowercased trimmed canonical is
mapped through the ontology (matching either the canonical key or one of its
synonyms); failing that, an ontology entry is selected when one of the
supplied synonyms (lowercased) belongs to it; failing that, the raw canonical
(or the sentinel generico when it is empty) is kept, together with the
supplied synonyms (or the raw canonical as its own synonym). -/
def normalizeTopic (t : Option TopicIn) : String × List String :=
  match TOPIC_ONTOLOGY.find? (fun p => p.1 = rawCanonOf t || p.2.contains (rawCanonOf t)) with
  | some p => p
  | none =>
    match TOPIC_ONTOLOGY.find? (fun p =>
        ((t.bind (fun x => x.synonyms)).getD []).any (fun s => p.2.contains (toLowerStr s))) with
    | some p => p
    | none =>
      (if rawCanonOf t ≠ "" then rawCanonOf t else "generico",
       match t.bind (fun x => x.synonyms) with
       | some syns => syns
       | none => if rawCanonOf t ≠ "" then [rawCanonOf t] else [])

/-- Keep-first deduplication; models the JavaScript filter with indexOf in the
year merge of intelligentQueryPlan. -/
def dedupFirstAux (seen : List Int) : List Int → List Int
  | [] => []
  | x :: xs =>
    if x ∈ seen then dedupFirstAux seen xs
    else x :: dedupFirstAux (x :: seen) xs

/-- Deduplicated list, first occurrences kept. -/
def dedupFirst (l : List Int) : List Int := dedupFirstAux [] l

/-- Ascending numeric sort; models the JavaScript sort with the subtraction
comparator. On the duplicate-free input it receives, any correct sort yields
this list. -/
def sortYears (l : List Int) : List Int :=
  List.insertionSort (fun a b => a ≤ b) l

/-- Normalized fields claim C7 speaks about. -/
structure NormalizedOut where
  years : List Int
  topicCanonical : String
  topicSynonyms : List String
deriving DecidableEq

/-- Merge step of intelligentQueryPlan restricted to the fields of claim C7:
the remote year list wins when it is non-empty, otherwise the local list is
used; the result is deduplicated keeping first occurrences and sorted
ascending; the topic is normalized from the remote topic when present,
otherwise from the local one. Remote values are modelled at their declared
types (year entries as integers); their contents are entirely unvalidated,
exactly as in the source. -/
def intelligentNormalize (llmYears : Option (List Int)) (llmTopic : Option TopicIn)
    (localYears : List Int) (localTopic : Option TopicIn) : NormalizedOut :=
  let base := match llmYears with
    | some ys => if ys.isEmpty then localYears else ys
    | none => localYears
  let t := normalizeTopic (match llmTopic with | some x => some x | none => localTopic)
  ⟨sortYears (dedupFirst base), t.1, t.2⟩

/-! ## Claim-side and amended-side reference definitions. Every definition in
this section follows the words of a spec claim (or of its minimal amendment),
for comparison against the source-derived definitions above. -/

/-- Executor behaviour as claim C1 words it: every failed variant, transport
level or HTTP level, is skipped and iteration continues with the next variant;
the first response with a positive total count and a non-empty result list
wins; when no variant yields data the result is the empty list. -/
def claimC1Exec : List VariantResp → List CKANDataset
  | [] => []
  | .transportErr :: rest => claimC1Exec rest
  | .httpErr :: rest => claimC1Exec rest
  | .ok c res :: rest => if 0 < c ∧ res ≠ [] then res else claimC1Exec rest

/-- Executor behaviour as amended for claim C1: an HTTP-level failure is
skipped, but a transport-level failure aborts the remaining variants and the
whole phase yields the empty list. -/
def amendedC1Exec : List VariantResp → List CKANDataset
  | [] => []
  | .transportErr :: _ => []
  | .httpErr :: rest => amendedC1Exec rest
  | .ok c res :: rest => if 0 < c ∧ res ≠ [] then res else amendedC1Exec rest

/-- Every year token of a string (word-boundary delimited 19xx or 20xx), for
the claim-side reading of the year requirement in claim C2. The scan tests
every position; this coincides with the regex resume-after-match behaviour
because the word boundaries forbid two matches from overlapping. -/
def yearTokensAux : Option Char → List Char → List Nat
  | _, [] => []
  | prev, c1 :: rest =>
    (match rest with
     | c2 :: c3 :: c4 :: after =>
       if boundaryBefore prev
           && ((c1 = '2' && c2 = '0') || (c1 = '1' && c2 = '9'))
           && c3.isDigit && c4.isDigit
           && boundaryAfter after then
         [1000 * digitVal c1 + 100 * digitVal c2 + 10 * digitVal c3 + digitVal c4]
       else []
     | _ => []) ++ yearTokensAux (some c1) rest

/-- Year token list of a string. -/
def yearTokens (s : String) : List Nat :=
  yearTokensAux none s.data

/-- Row-level filter as claim C2 words it: keep exactly the rows whose
serialized text contains the geography token case-insensitively, and accept
that subset (capped at 20) exactly when at least one kept row carries a
four-digit year token inside the closed window; otherwise nothing is
accepted at row level. -/
def claimC2Filter (g : String) (startYear endYear : Nat)
    (rows : List (List (String × String))) : Option (List (List (String × String))) :=
  let geoRows := rows.filter (fun r => strIncludes (toLowerStr (stringifyRow r)) (toLowerStr g))
  if geoRows.any (fun r =>
      (yearTokens (toLowerStr (stringifyRow r))).any (fun y => decide (startYear ≤ y) && decide (y ≤ endYear))) then
    some (geoRows.take 20)
  else none

/-- JSON sampler as claim C4 words it: the wrapper key used is the first among
data, records, result whose value is an array. -/
def claimC4Sample (parsed : Option Json) : List Json :=
  match parsed with
  | none => []
  | some j =>
    match j with
    | .jarr xs => xs.take 20
    | _ =>
      match ["data", "records", "result"].findSome? (fun k =>
          match jsGet j k with
          | .jarr xs => some xs
          | _ => none) with
      | some xs => xs.take 20
      | none => []

/-- Wrapper value selected by the source: the first truthy value among the
three wrapper keys. -/
def firstTruthyWrapper (j : Json) : Option Json :=
  ["data", "records", "result"].findSome? (fun k =>
    let v := jsGet j k
    if jsTruthy v then some v else none)

/-- JSON sampler as amended for claim C4: the wrapper value is the first
truthy one among data, records, result; it contributes its first 20 elements
when it is an array and zero rows when it is not or when no wrapper value is
truthy. -/
def amendedC4Sample (parsed : Option Json) : List Json :=
  match parsed with
  | none => []
  | some j =>
    match j with
    | .jarr xs => xs.take 20
    | _ =>
      match firstTruthyWrapper j with
      | some (.jarr xs) => xs.take 20
      | _ => []

/-! ## Concrete rows used by the claims and counterexamples -/

/-- Row with city Milano and year 2022, from the concrete example in claim C2. -/
def rowMilano2022 : List (String × String) := [("city", "Milano"), ("year", "2022")]

/-- Row with city Roma and year 2022, from the concrete example in claim C2. -/
def rowRoma2022 : List (String × String) := [("city", "Roma"), ("year", "2022")]

/-- Row with city Milano and an out-of-window year. -/
def rowMilano1900 : List (String × String) := [("city", "Milano"), ("year", "1900")]

/-- Row matching neither the geography token nor the year window. -/
def rowRoma1900 : List (String × String) := [("city", "Roma"), ("year", "1900")]

/-! ## Helper lemmas -/

/-- Splitting on an absent delimiter returns the whole list as one field. -/
theorem aux_splitCharsOn_no_delim (d : Char) (l : List Char) (h : d ∉ l) :
    splitCharsOn d l = [l] := by
  induction l with
  | nil => rfl
  | cons c rest ih =>
    have hcd : ¬ c = d := fun hc => h (hc ▸ List.mem_cons_self c rest)
    have hrest : d ∉ rest := fun hm => h (List.mem_cons_of_mem c hm)
    simp [splitCharsOn, hcd, ih hrest]

/-- Search loop result when every response carries an empty results list. -/
theorem aux_searchLoop_empty (rs : List VariantResp)
    (hall : ∀ r ∈ rs, respResults r = []) : searchLoop rs [] = [] := by
  induction rs with
  | nil => rfl
  | cons head rest ih =>
    cases head with
    | transportErr => rfl
    | httpErr =>
      exact ih (fun r hm => hall r (List.mem_cons_of_mem _ hm))
    | ok c res =>
      have hres : res = [] := hall (VariantResp.ok c res) (List.mem_cons_self _ _)
      subst hres
      simp only [searchLoop, ne_eq, not_true_eq_false, and_false, if_false]
      exact ih (fun r hm => hall r (List.mem_cons_of_mem _ hm))

/-- Every URL in the search trace is the URL of one of the variants. -/
theorem aux_searchTrace_subset (vs : List (String × VariantResp)) :
    ∀ u ∈ searchTrace vs, u ∈ vs.map (fun p => p.1) := by
  induction vs with
  | nil => intro u hu; simp [searchTrace] at hu
  | cons head rest ih =>
    obtain ⟨u0, r0⟩ := head
    intro u hu
    cases r0 with
    | transportErr =>
      simp [searchTrace] at hu
      simp [hu]
    | httpErr =>
      simp only [searchTrace, List.mem_cons] at hu
      rcases hu with h | h
      · simp [h]
      · exact List.mem_cons_of_mem _ (ih u h)
    | ok c res =>
      simp only [searchTrace] at hu
      by_cases hc : 0 < c ∧ res ≠ []
      · rw [if_pos hc] at hu
        simp at hu
        simp [hu]
      · rw [if_neg hc] at hu
        rcases List.mem_cons.mp hu with h | h
        · simp [h]
        · exact List.mem_cons_of_mem _ (ih u h)

/-- Membership in the keep-first deduplication avoids the seen accumulator. -/
theorem aux_mem_dedupFirstAux (l : List Int) :
    ∀ seen y, y ∈ dedupFirstAux seen l → y ∉ seen := by
  induction l with
  | nil => intro seen y hy; simp [dedupFirstAux] at hy
  | cons x xs ih =>
    intro seen y hy
    by_cases hx : x ∈ seen
    · rw [dedupFirstAux, if_pos hx] at hy
      exact ih seen y hy
    · rw [dedupFirstAux, if_neg hx] at hy
      rcases List.mem_cons.mp hy with h | h
      · exact h ▸ hx
      · have := ih (x :: seen) y h
        exact fun hs => this (List.mem_cons_of_mem x hs)

/-- Keep-first deduplication produces a duplicate-free list. -/
theorem aux_nodup_dedupFirstAux (l : List Int) :
    ∀ seen, (dedupFirstAux seen l).Nodup := by
  induction l with
  | nil => intro seen; simp [dedupFirstAux]
  | cons x xs ih =>
    intro seen
    by_cases hx : x ∈ seen
    · rw [dedupFirstAux, if_pos hx]; exact ih seen
    · rw [dedupFirstAux, if_neg hx]
      refine List.nodup_cons.mpr ⟨?_, ih (x :: seen)⟩
      intro hxm
      exact aux_mem_dedupFirstAux xs (x :: seen) x hxm (List.mem_cons_self x seen)

/-- Year merge output is strictly sorted (ascending and duplicate-free). -/
theorem aux_sorted_lt_years (l : List Int) :
    List.Sorted (fun a b => a < b) (sortYears (dedupFirst l)) := by
  have hsorted : List.Sorted (fun a b => a ≤ b) (sortYears (dedupFirst l)) :=
    List.sorted_insertionSort _ _
  have hnodup : (sortYears (dedupFirst l)).Nodup :=
    (List.perm_insertionSort (fun a b => a ≤ b) (dedupFirst l)).symm.nodup
      (aux_nodup_dedupFirstAux l [])
  exact hsorted.lt_of_le hnodup

/-- First components of ontology entries are never empty. -/
theorem aux_ontology_fst_ne (p : String × List String) (hp : p ∈ TOPIC_ONTOLOGY) :
    p.1 ≠ "" := by
  simp [TOPIC_ONTOLOGY] at hp
  simp [hp]

/-- Canonical topic produced by normalizeTopic is never the empty string. -/
theorem aux_normalizeTopic_ne (t : Option TopicIn) : (normalizeTopic t).1 ≠ "" := by
  unfold normalizeTopic
  cases h1 : TOPIC_ONTOLOGY.find?
      (fun p => p.1 = rawCanonOf t || p.2.contains (rawCanonOf t)) with
  | some p =>
    simp only [h1]
    exact aux_ontology_fst_ne p (List.mem_of_find?_eq_some h1)
  | none =>
    simp only [h1]
    cases h2 : TOPIC_ONTOLOGY.find? (fun p =>
        ((t.bind (fun x => x.synonyms)).getD []).any (fun s => p.2.contains (toLowerStr s))) with
    | some p =>
      simp only [h2]
      exact aux_ontology_fst_ne p (List.mem_of_find?_eq_some h2)
    | none =>
      simp only [h2]
      by_cases hr : rawCanonOf t ≠ ""
      · simp [hr]
      · simp [hr]

/-! ## Claim theorems -/

/-- Claim C1 (corrected). Counterexample to the claim as stated: a variant
whose request fails at the transport level is NOT skipped — the exception
lands in the catch surrounding the whole loop, so the later variant carrying
data is never tried and the executor yields the empty list, while the claim
predicts the later variant result. -/
theorem c1_executor_counterexample :
    searchLoop [VariantResp.transportErr, VariantResp.ok 5 [⟨"d"⟩]] [] = []
    ∧ claimC1Exec [VariantResp.transportErr, VariantResp.ok 5 [⟨"d"⟩]] = [⟨"d"⟩]
    ∧ ([] : List CKANDataset) ≠ [⟨"d"⟩] := by
  decide

/-- Claim C1 (amended). The executor iterates the variants strictly in order;
a variant returning a non-success HTTP status is skipped without retry and
iteration continues; a transport-level failure aborts the remaining variants
and the executor yields the empty list; otherwise it stops at the first
variant whose response reports a positive total count and a non-empty result
list and returns its results; when no variant yields data the empty list is
returned without error. The hypothesis states that completed responses are
consistent (a non-empty result list comes with a positive total count), which
every real catalog response satisfies; without it the source keeps the result
list of an inconsistent trailing response. -/
theorem c1_executor_amended (rs : List VariantResp)
    (hcons : ∀ c res, VariantResp.ok c res ∈ rs → res ≠ [] → 0 < c) :
    searchLoop rs [] = amendedC1Exec rs := by
  induction rs with
  | nil => rfl
  | cons head rest ih =>
    cases head with
    | transportErr => rfl
    | httpErr =>
      exact ih (fun c res hm => hcons c res (List.mem_cons_of_mem _ hm))
    | ok c res =>
      by_cases hc : 0 < c ∧ res ≠ []
      · simp only [searchLoop, amendedC1Exec, if_pos hc]
      · have hres : res = [] := by
          by_contra hne
          exact hc ⟨hcons c res (List.mem_cons_self _ _) hne, hne⟩
        subst hres
        simp only [searchLoop, amendedC1Exec, if_neg hc]
        exact ih (fun c2 res2 hm => hcons c2 res2 (List.mem_cons_of_mem _ hm))

/-- Witness for the amended claim C1 at a concrete consistent response list. -/
theorem c1_executor_amended_witness :
    searchLoop [VariantResp.ok 1 [⟨"t"⟩]] [] = amendedC1Exec [VariantResp.ok 1 [⟨"t"⟩]] := by
  apply c1_executor_amended
  intro c res hm hne
  simp only [List.mem_singleton, VariantResp.ok.injEq] at hm
  omega

/-- Claim C3 (corrected). Counterexample to the claim as stated: with every
targeted variant returning an empty result set (a completed response with
count 0 and a skipped HTTP failure), the search phase issues no request beyond
the targeted variant URLs — in particular no broad geography-only fallback
request — and zero datasets survive to sampling, while the claim predicts a
fallback search whose positively scored candidates survive. -/
theorem c3_no_fallback_counterexample :
    ¬ (∃ u ∈ searchTrace [("u1", VariantResp.ok 0 []), ("u2", VariantResp.httpErr)],
        u ∉ ["u1", "u2"])
    ∧ (searchPhase [("u1", VariantResp.ok 0 []), ("u2", VariantResp.httpErr)]).2 = [] := by
  decide

/-- Claim C3 (amended). No broad fallback search exists in the source: every
request issued by the search phase is one of the targeted variant URLs, and
when every variant response carries an empty result list (geography known or
not) zero datasets survive to sampling; the pipeline proceeds directly to the
no-data terminal outcome. -/
theorem c3_no_fallback_amended :
    (∀ vs : List (String × VariantResp), ∀ u ∈ searchTrace vs, u ∈ vs.map (fun p => p.1))
    ∧ (∀ vs : List (String × VariantResp),
        (∀ r ∈ vs.map (fun p => p.2), respResults r = []) → (searchPhase vs).2 = []) := by
  constructor
  · exact aux_searchTrace_subset
  · intro vs hall
    simp only [searchPhase]
    rw [aux_searchLoop_empty _ hall]
    rfl

/-- Witness for the amended claim C3 at a concrete all-empty response list. -/
theorem c3_no_fallback_amended_witness :
    (searchPhase [("u1", VariantResp.ok 0 []), ("u2", VariantResp.httpErr)]).2 = [] :=
  c3_no_fallback_amended.2 [("u1", VariantResp.ok 0 []), ("u2", VariantResp.httpErr)]
    (by decide)

/-- Claim C5 (corrected). Counterexample to the claim as stated: the sampled
row matches neither the geography token nor the year window, and the source
consults no dataset title/description/publisher text and no resource host
(the acceptance step has no such inputs at all), yet the entire unfiltered
sample is accepted rather than discarded. -/
theorem c5_dataset_fallback_counterexample :
    List.filter (rowPasses (some "Milano") 2018) [rowRoma1900] = []
    ∧ strIncludes (toLowerStr (stringifyRow rowRoma1900)) "milano" = false
    ∧ relevanceAccept (some "Milano") 2018 [rowRoma1900] = [rowRoma1900]
    ∧ ([rowRoma1900] : List (List (String × String))) ≠ [] := by
  decide

/-- Claim C5 (amended). When no sampled row passes the row filter, the
pipeline accepts the entire unfiltered sample capped at 20 rows
unconditionally: no dataset-metadata containment check, no authoritative-host
check and no year check guards this fallback. -/
theorem c5_dataset_fallback_amended (city : Option String) (startYear : Nat)
    (rows : List (List (String × String)))
    (hnone : rows.filter (rowPasses city startYear) = []) :
    relevanceAccept city startYear rows = rows.take 20 := by
  simp only [relevanceAccept, hnone, List.isEmpty_nil, if_true]

/-- Witness for the amended claim C5 at the concrete non-matching sample. -/
theorem c5_dataset_fallback_amended_witness :
    relevanceAccept (some "Milano") 2018 [rowRoma1900] = [rowRoma1900].take 20 :=
  c5_dataset_fallback_amended (some "Milano") 2018 [rowRoma1900] (by decide)

/-- Claim C9 (confirmed). When the metadata-only probe succeeds and declares a
content length exceeding the 1,000,000-byte ceiling, the sampler returns zero
rows, independently of any body (no body is fetched); in every other case the
body that reaches decoding is the fetched body truncated to at most the
ceiling. -/
theorem c9_size_gate :
    (∀ h respBody, h.ok = true → MAX_BYTES < h.contentLength →
      fetchStage h respBody = FetchStage.skippedLarge)
    ∧ (∀ parse h respBody, h.ok = true → MAX_BYTES < h.contentLength →
      stageRows parse (fetchStage h respBody) = [])
    ∧ (∀ h respBody bs, fetchStage h respBody = FetchStage.body bs →
      bs.length ≤ MAX_BYTES ∧ ∃ body0, respBody = some body0
        ∧ bs = (if MAX_BYTES < body0.length then body0.take MAX_BYTES else body0)) := by
  have hskip : ∀ (h : HeadProbe) respBody, h.ok = true → MAX_BYTES < h.contentLength →
      fetchStage h respBody = FetchStage.skippedLarge := by
    intro h respBody hok hlt
    have hne : h.contentLength ≠ 0 := by omega
    simp [fetchStage, hok, hne, hlt]
  refine ⟨hskip, ?_, ?_⟩
  · intro parse h respBody hok hlt
    rw [hskip h respBody hok hlt]
    rfl
  · intro h respBody bs heq
    unfold fetchStage at heq
    split at heq
    · exact absurd heq (by simp)
    · cases respBody with
      | none => exact absurd heq (by simp)
      | some body0 =>
        simp only [FetchStage.body.injEq] at heq
        refine ⟨?_, body0, rfl, heq.symm⟩
        rw [← heq]
        by_cases hlen : MAX_BYTES < body0.length
        · simp [hlen]
        · simp [hlen]; omega

/-- Witness for claim C9: a probe declaring two megabytes is skipped with zero
rows, and a delivered body passes through whole when under the ceiling. -/
theorem c9_size_gate_witness :
    fetchStage ⟨true, 2000000⟩ (some [7]) = FetchStage.skippedLarge
    ∧ ([1, 2].length ≤ MAX_BYTES ∧ ∃ body0, (some [1, 2] : Option (List Nat)) = some body0
        ∧ [1, 2] = (if MAX_BYTES < body0.length then body0.take MAX_BYTES else body0)) :=
  ⟨c9_size_gate.1 ⟨true, 2000000⟩ (some [7]) rfl (by decide),
   c9_size_gate.2.2 ⟨false, 0⟩ (some [1, 2]) [1, 2] (by decide)⟩

/-- Claim C10 (corrected). Counterexample to the claim as stated: under a
header containing none of the three delimiter characters the comma is indeed
chosen, but a body line that itself contains a comma is split at it, so not
every line is returned as a single field. -/
theorem c10_tiebreak_counterexample :
    chooseDelim "ab" = ','
    ∧ splitCSVLine "x,y" "ab" = ["x", "y"]
    ∧ ¬ (∀ line, splitCSVLine line "ab" = [line]) :=
  ⟨by decide, by decide, fun hall => absurd (hall "x,y") (by decide)⟩

/-- Claim C10 (amended). Ties in the header occurrence counts are broken in
the fixed order comma, then semicolon, then tab; for every header line
containing none of the three delimiter characters the comma is chosen, and
every line itself free of commas is returned as a single field. -/
theorem c10_tiebreak_amended :
    (∀ h, countChar ';' h ≤ countChar ',' h → countChar TAB h ≤ countChar ',' h →
      chooseDelim h = ',')
    ∧ (∀ h, countChar ',' h < countChar ';' h → countChar TAB h ≤ countChar ';' h →
      chooseDelim h = ';')
    ∧ (∀ h, countChar ',' h < countChar TAB h → countChar ';' h < countChar TAB h →
      chooseDelim h = TAB)
    ∧ (∀ header line, countChar ',' header = 0 → countChar ';' header = 0 →
        countChar TAB header = 0 → countChar ',' line = 0 →
        chooseDelim header = ',' ∧ splitCSVLine line header = [line]) := by
  have hchoose : ∀ h, countChar ';' h ≤ countChar ',' h → countChar TAB h ≤ countChar ',' h →
      chooseDelim h = ',' := by
    intro h h1 h2
    simp only [chooseDelim]
    rw [if_neg (by omega), if_neg (by omega)]
  refine ⟨hchoose, ?_, ?_, ?_⟩
  · intro h h1 h2
    simp only [chooseDelim]
    rw [if_pos (by omega), if_neg (by omega)]
  · intro h h1 h2
    simp only [chooseDelim]
    by_cases hb : countChar ';' h > countChar ',' h
    · rw [if_pos hb, if_pos (by omega)]
    · rw [if_neg hb, if_pos (by omega)]
  · intro header line hc hs ht hl
    have hdelim : chooseDelim header = ',' := hchoose header (by omega) (by omega)
    refine ⟨hdelim, ?_⟩
    have hnotin : ',' ∉ line.data := by
      intro hmem
      have : (0 : Nat) < countChar ',' line := by
        simp only [countChar, List.length_pos]
        exact fun hnil => (List.filter_eq_nil_iff.mp hnil ',' hmem) (by simp)
      omega
    simp only [splitCSVLine, hdelim, strSplitOn, aux_splitCharsOn_no_delim ',' line.data hnotin]
    rfl

/-- Witness for the amended claim C10: tab wins a clear majority, and a
comma-free line under a delimiter-free header stays one field. -/
theorem c10_tiebreak_amended_witness :
    chooseDelim "a\tb" = TAB
    ∧ (chooseDelim "ab" = ',' ∧ splitCSVLine "xy" "ab" = ["xy"]) :=
  ⟨c10_tiebreak_amended.2.2.1 "a\tb" (by decide) (by decide),
   c10_tiebreak_amended.2.2.2 "ab" "xy" (by decide) (by decide) (by decide) (by decide)⟩

/-- Claim C2 (corrected). Counterexample to the claim as stated: with two rows
both containing the geography token, one carrying an in-window year and the
other the out-of-window year 1900, the claim-side filter accepts exactly the
geography subset (both rows, since at least one kept row has an in-window
year), while the source applies the year condition to each row individually
and keeps only the first. -/
theorem c2_row_filter_counterexample :
    claimC2Filter "Milano" 2018 2022 [rowMilano2022, rowMilano1900]
      = some [rowMilano2022, rowMilano1900]
    ∧ relevanceAccept (some "Milano") 2018 [rowMilano2022, rowMilano1900] = [rowMilano2022]
    ∧ ([rowMilano2022] : List (List (String × String))) ≠ [rowMilano2022, rowMilano1900] := by
  decide

/-- Claim C2 (amended). The filter keeps exactly the rows whose lowercased
serialized text contains the lowercased geography token AND whose first
four-digit year token, when one is present, is at least startYear (the upper
end of the window is not checked, and the year condition applies to each row
individually rather than to at least one); when this set is non-empty it is
accepted capped at 20 rows; on the concrete rows of the claim exactly the
first row is returned. -/
theorem c2_row_filter_amended :
    (∀ g sy rows, rows.filter (rowPasses (some g) sy) ≠ [] →
      relevanceAccept (some g) sy rows = (rows.filter (rowPasses (some g) sy)).take 20)
    ∧ (∀ g sy rows r, rows.filter (rowPasses (some g) sy) ≠ [] →
        r ∈ relevanceAccept (some g) sy rows →
        strIncludes (toLowerStr (stringifyRow r)) (toLowerStr g) = true
        ∧ ∀ y, firstYearToken (toLowerStr (stringifyRow r)) = some y → sy ≤ y)
    ∧ relevanceAccept (some "Milano") 2018 [rowMilano2022, rowRoma2022] = [rowMilano2022]
    ∧ relevanceAccept (some "Milano") 2018 [rowMilano2022, rowMilano1900] = [rowMilano2022] := by
  have hkeep : ∀ (g : String) (sy : Nat) rows,
      rows.filter (rowPasses (some g) sy) ≠ [] →
      relevanceAccept (some g) sy rows = (rows.filter (rowPasses (some g) sy)).take 20 := by
    intro g sy rows hne
    simp only [relevanceAccept]
    rw [if_neg (by simpa [List.isEmpty_iff] using hne)]
  refine ⟨hkeep, ?_, by decide, by decide⟩
  intro g sy rows r hne hmem
  rw [hkeep g sy rows hne] at hmem
  have hmem2 : r ∈ rows.filter (rowPasses (some g) sy) :=
    List.take_subset 20 _ hmem
  have hpass : rowPasses (some g) sy r = true := (List.mem_filter.mp hmem2).2
  simp only [rowPasses, Bool.and_eq_true] at hpass
  obtain ⟨hcity, hyear⟩ := hpass
  refine ⟨hcity, ?_⟩
  intro y hy
  rw [hy] at hyear
  exact of_decide_eq_true hyear

/-- Witness for the amended claim C2 at a concrete matching sample. -/
theorem c2_row_filter_amended_witness :
    relevanceAccept (some "Milano") 2018 [rowMilano2022]
      = ([rowMilano2022].filter (rowPasses (some "Milano") 2018)).take 20 :=
  c2_row_filter_amended.1 "Milano" 2018 [rowMilano2022] (by decide)

/-- Claim C4 (corrected). Counterexample to the claim as stated: in an object
whose data key holds a truthy non-array value and whose records key holds an
array, the claim-side sampler returns the records array, while the source
selects the first truthy wrapper value (data), finds it is not an array, and
yields zero rows. -/
theorem c4_json_wrapper_counterexample :
    jsonSample (some (Json.jobj [("data", Json.jstr "x"), ("records", Json.jarr [Json.jstr "r"])]))
      = []
    ∧ claimC4Sample (some (Json.jobj [("data", Json.jstr "x"), ("records", Json.jarr [Json.jstr "r"])]))
      = [Json.jstr "r"]
    ∧ ([] : List Json) ≠ [Json.jstr "r"] :=
  ⟨rfl, rfl, by simp⟩

/-- Claim C4 (amended). For a structured JSON resource the sampler returns the
first at-most-20 elements of a top-level array; for a top-level object it
selects the first TRUTHY value among the wrapper keys data, records, result
and returns its first at-most-20 elements when that value is an array; it
yields zero rows, not an error, when parsing fails, when no wrapper value is
truthy, or when the selected wrapper value is not an array. -/
theorem c4_json_wrapper_amended :
    (∀ parsed, jsonSample parsed = amendedC4Sample parsed)
    ∧ (∀ parsed, (jsonSample parsed).length ≤ 20)
    ∧ (∀ xs, jsonSample (some (Json.jarr xs)) = xs.take 20)
    ∧ jsonSample none = [] := by
  have hwrap : ∀ parsed, jsonSample parsed = amendedC4Sample parsed := by
    intro parsed
    match parsed with
    | none => rfl
    | some (Json.jarr xs) => rfl
    | some Json.jnull => rfl
    | some (Json.jbool b) => rfl
    | some (Json.jnum n) => rfl
    | some (Json.jstr s) => rfl
    | some (Json.jobj fs) =>
      simp only [jsonSample, amendedC4Sample, firstTruthyWrapper, List.findSome?]
      cases h1 : jsTruthy (jsGet (Json.jobj fs) "data") with
      | true =>
        simp only [h1, if_true]
        cases jsGet (Json.jobj fs) "data" <;> rfl
      | false =>
        cases h2 : jsTruthy (jsGet (Json.jobj fs) "records") with
        | true =>
          simp only [h1, h2, if_false, if_true]
          cases jsGet (Json.jobj fs) "records" <;> rfl
        | false =>
          cases h3 : jsTruthy (jsGet (Json.jobj fs) "result") with
          | true =>
            simp only [h1, h2, h3, if_false, if_true]
            cases jsGet (Json.jobj fs) "result" <;> rfl
          | false => simp [h1, h2, h3]
  refine ⟨hwrap, ?_, fun xs => rfl, rfl⟩
  intro parsed
  match parsed with
  | none => simp [jsonSample]
  | some j =>
    cases j with
    | jarr xs => exact List.length_take_le 20 xs
    | jnull => simp [show jsonSample (some Json.jnull) = [] from rfl]
    | jbool b => simp [show jsonSample (some (Json.jbool b)) = [] from rfl]
    | jnum n => simp [show jsonSample (some (Json.jnum n)) = [] from rfl]
    | jstr s => simp [show jsonSample (some (Json.jstr s)) = [] from rfl]
    | jobj fs =>
      simp only [jsonSample]
      split
      · exact List.length_take_le 20 _
      · simp

/-- Claim C6 (corrected). Counterexample to the claim as stated: for a
normalized query with no geography, the Milano-holder, Milano-organization and
plain-text variants all carry the same query text and the same (empty) filter
set, so the plan contains three variants with one identical final request URL
— no deduplication collapses them. -/
theorem c6_dedup_counterexample :
    ¬ ((buildCKANPlanVariants ⟨["reati", "delitti"], "reati", "", []⟩).map
        (fun v => v.url)).Nodup := by
  decide

/-- Claim C6 (amended). The builder performs no deduplication: for every input
whose geography is absent, the city-scoped variants coincide with the plain
text variant, so the returned list always contains duplicate final request
URLs (the claimed universal no-duplicates property fails). -/
theorem c6_dedup_amended (syn : List String) (canon : String) (yrs : List Int) :
    ¬ ((buildCKANPlanVariants ⟨syn, canon, "", yrs⟩).map (fun v => v.url)).Nodup := by
  intro h
  have hcity : ¬ (("" : String) = "Milano") := by decide
  simp only [buildCKANPlanVariants, sortByPriority, List.insertionSort,
    List.orderedInsert, if_neg hcity] at h
  simp at h

/-- Claim C7 (corrected). Counterexample to the claim as stated: a remote
extraction result carrying the year entry 123456 (arbitrary untrusted JSON of
the declared numeric type) passes through the merge unvalidated, so the
normalized years list is not made of valid 4-digit years. -/
theorem c7_years_counterexample :
    (intelligentNormalize (some [123456]) none [] none).years = [123456]
    ∧ ¬ ((123456 : Int) ≤ 9999) := by
  decide

/-- Claim C7 (amended). For every question and every remote extraction result,
the normalized years list is strictly sorted ascending (hence duplicate-free)
and the canonical topic is a non-empty string (defaulting to the sentinel
generico); the 4-digit guarantee does not hold, because years adopted from the
remote extraction are passed through without validation. -/
theorem c7_normalized_invariants (llmYears : Option (List Int)) (llmTopic : Option TopicIn)
    (localYears : List Int) (localTopic : Option TopicIn) :
    List.Sorted (fun a b => a < b)
      (intelligentNormalize llmYears llmTopic localYears localTopic).years
    ∧ (intelligentNormalize llmYears llmTopic localYears localTopic).topicCanonical ≠ "" :=
  ⟨aux_sorted_lt_years _, aux_normalizeTopic_ne _⟩

/-- Claim C8 (confirmed). The CSV sampler discards blank lines (demonstrated
on a concrete text with interleaved blank lines), returns zero rows when fewer
than two non-blank lines exist, chooses a delimiter whose header-line count is
maximal among comma, semicolon and tab (so the header a;b;c selects the
semicolon, and the choice depends only on the header, not on commas inside
body values), and returns at most the first 20 data rows. -/
theorem c8_csv_sampler :
    (∀ text, (csvSample text).length ≤ 20)
    ∧ (∀ text, (nonBlankLines text).length < 2 → csvSample text = [])
    ∧ (∀ h, countChar ',' h ≤ countChar (chooseDelim h) h
        ∧ countChar ';' h ≤ countChar (chooseDelim h) h
        ∧ countChar TAB h ≤ countChar (chooseDelim h) h)
    ∧ chooseDelim "a;b;c" = ';'
    ∧ (∀ line, splitCSVLine line "a;b;c" = strSplitOn ';' line)
    ∧ csvSample "a;b;c\nx,1;y;z" = [[("a", "x,1"), ("b", "y"), ("c", "z")]]
    ∧ csvSample "a;b;c\n\nx;y;z\n" = csvSample "a;b;c\nx;y;z" := by
  refine ⟨?_, ?_, ?_, by decide, ?_, by decide, by decide⟩
  · intro text
    unfold csvSample
    split
    · simp
    · simp
    · exact List.length_take_le 20 _
  · intro text hlt
    match hnb : nonBlankLines text with
    | [] =>
      unfold csvSample
      rw [hnb]
      rfl
    | [a] =>
      unfold csvSample
      rw [hnb]
      rfl
    | a :: b :: t =>
      rw [hnb] at hlt
      simp only [List.length_cons] at hlt
      omega
  · intro h
    have hd : chooseDelim h =
        (if countChar ';' h > countChar ',' h then
          (if countChar TAB h > countChar ';' h then TAB else ';')
        else (if countChar TAB h > countChar ',' h then TAB else ',')) := rfl
    by_cases h1 : countChar ';' h > countChar ',' h
    · by_cases h2 : countChar TAB h > countChar ';' h
      · rw [hd, if_pos h1, if_pos h2]; exact ⟨by omega, by omega, by omega⟩
      · rw [hd, if_pos h1, if_neg h2]; exact ⟨by omega, by omega, by omega⟩
    · by_cases h2 : countChar TAB h > countChar ',' h
      · rw [hd, if_neg h1, if_pos h2]; exact ⟨by omega, by omega, by omega⟩
      · rw [hd, if_neg h1, if_neg h2]; exact ⟨by omega, by omega, by omega⟩
  · intro line
    have hd : chooseDelim "a;b;c" = ';' := by decide
    simp only [splitCSVLine, hd]

/-- Witness for claim C8 at a text with a single non-blank line. -/
theorem c8_csv_sampler_witness :
    csvSample "solo" = [] :=
  c8_csv_sampler.2.1 "solo" (by decide)

end Opendati
